import Mathlib

/-!
# Verification of the hekdi dependency-injection container

Shallow embedding of the hekdi DI container.  The repository ships
`src/module.js` (the Module wrapper), `src/frameworks/koa.js` (the web
adapter) and `test/injector.spec.js`; the core `src/injector.js` is not
part of the shipped sources, so the Injector (registry, register,
addImports, resolve with cycle detection) is modelled from the spec
(§3, §4.1, §4.2) and pinned by the shipped test suite.
-/

namespace Hekdi

/-- Literal values stored under the `value` / `constant` strategies. -/
inductive Lit where
  | str : String → Lit
  | num : Int → Lit
deriving DecidableEq, Repr

/-- A class-like construction target: its identity (constructor name) and
its statically declared dependency-name list (the `$inject` list; `[]`
when absent). -/
structure ClassDef where
  ctorName : String
  inject : List String
deriving DecidableEq, Repr

/-- The heterogeneous `value` field of a dependency config.
`cls` is a constructible class, `lit` a literal, `ref` a name string
(alias target), and `thunk` models a zero-argument provider function by
the config fields it returns (name, strategy, value, belongsTo). -/
inductive DepValue where
  | cls : ClassDef → DepValue
  | lit : Lit → DepValue
  | ref : String → DepValue
  | thunk : String → String → DepValue → Option String → DepValue
deriving DecidableEq, Repr

/-- A dependency configuration (spec §3).  `strategy` is kept as a raw
string, as in the JS source, so that unrecognized strategies are
representable.  `belongTo` uses the field name that `src/module.js`
reads (`value.belongTo`). -/
structure DConf where
  name : String
  strategy : String
  value : DepValue
  belongTo : Option String := none
deriving DecidableEq, Repr

/-- The six recognized strategy kinds (spec §3). -/
inductive Strategy where
  | singleton | factory | value | constant | alias | provider
deriving DecidableEq, Repr

/-- Parse a raw strategy string; `none` means unrecognized. -/
def parseStrategy : String → Option Strategy
  | "singleton" => some .singleton
  | "factory" => some .factory
  | "value" => some .value
  | "constant" => some .constant
  | "alias" => some .alias
  | "provider" => some .provider
  | _ => none

/-- The registry mapping: insertion-ordered association list from name to
config (models a JS `Map`). -/
abbrev RegMap := List (String × DConf)

/-- First-match lookup in a registry. -/
def lookupReg : RegMap → String → Option DConf
  | [], _ => none
  | (k, c) :: rest, n => if k = n then some c else lookupReg rest n

/-- `Map.set` semantics: replace in place when the key exists (keeping
its original position), append otherwise. -/
def insertReg : RegMap → String → DConf → RegMap
  | [], n, c => [(n, c)]
  | (k, c') :: rest, n, c =>
      if k = n then (n, c) :: rest else (k, c') :: insertReg rest n c

/-- Errors of the container (spec §7). -/
inductive DIError where
  | config : String → DIError
  | cycle : String → DIError
  | resolution : String → DIError
deriving DecidableEq, Repr

/-- An Injector: owning module name plus the registry
(`dependencies : name → DependencyConfig`, spec §3). -/
structure Injector where
  name : String
  dependencies : RegMap
deriving DecidableEq, Repr

/-- Modelled from the spec: does the registry already hold `n` under the
`constant` strategy (spec §4.1, constants are write-once)? -/
def constantConflict (i : Injector) (n : String) : Bool :=
  match lookupReg i.dependencies n with
  | some old => old.strategy = "constant"
  | none => false

/-- Store a config, tagging `belongTo` with the owning module's name if
not already set (spec §4.1, last bullet). -/
def store (i : Injector) (c : DConf) : Injector :=
  { i with dependencies := (insertReg i.dependencies c.name
      ({ c with belongTo := some (c.belongTo.getD i.name) })) }

/-- Modelled from the spec: registration of one config (spec §4.1), in
the spec's order: validate the strategy is recognized; fail if the name
is already fixed as a constant; for `provider`, invoke the thunk once and
register the produced config in its place after checking it is not
itself a provider; otherwise store, tagging `belongTo`. -/
def registerOne (i : Injector) (c : DConf) : Except DIError Injector :=
  match parseStrategy c.strategy with
  | none => .error (.config ("Unknown strategy: " ++ c.strategy))
  | some st =>
    if constantConflict i c.name then
      .error (.config (c.name ++ ": constant is already defined"))
    else if st = .provider then
      match c.value with
      | .thunk n stS v b =>
        match parseStrategy stS with
        | none => .error (.config ("Unknown strategy: " ++ stS))
        | some st' =>
          if st' = .provider then
            .error (.config "Provider must not return a provider config")
          else if constantConflict i n then
            .error (.config (n ++ ": constant is already defined"))
          else .ok (store i ⟨n, stS, v, b⟩)
      | _ => .error (.config "Provider value must be a function")
    else .ok (store i c)

/-- Modelled from the spec: `register(...configs)` processes the configs
in order; an error aborts the call but configs already processed stay
registered (spec §4.1: "no partial registration side effects beyond
configs already processed in the same call").  The post-state registry
is returned alongside the error, mirroring that a thrown JS exception
does not roll back earlier `Map.set` calls. -/
def register (i : Injector) : List DConf → Option DIError × Injector
  | [] => (none, i)
  | c :: rest =>
    match registerOne i c with
    | .error e => (some e, i)
    | .ok i' => register i' rest

/-- Modelled from the spec: `addImports` merges exported entries into the
local registry without altering their `belongTo`; a collision with a
locally fixed constant fails as in `register` (spec §4.1). -/
def addImports (i : Injector) : List (String × DConf) → Except DIError Injector
  | [] => .ok i
  | (k, c) :: rest =>
    if constantConflict i k then
      .error (.config (k ++ ": constant is already defined"))
    else addImports { i with dependencies := insertReg i.dependencies k c } rest

/-- `getConfigOf(name)`: read-only lookup (spec §4.1). -/
def Injector.getConfigOf (i : Injector) (n : String) : Option DConf :=
  lookupReg i.dependencies n

/-- Run-time values produced by `resolve`: literals, raw class objects
(a `value` config whose payload is a class), and constructed instances.
The `Nat` of `inst` is a fresh allocation identifier, so that JS
reference equality of instances is expressible. -/
inductive RtValue where
  | lit : Lit → RtValue
  | clsObj : ClassDef → RtValue
  | inst : Nat → String → List RtValue → RtValue

/-- One entry of the singleton instance cache, keyed by owning module
and dependency name (spec §3: per-Injector memo for `singleton`). -/
structure CacheEntry where
  owner : String
  depName : String
  val : RtValue

/-- Mutable resolver state threaded through a resolve: the singleton
cache, the next fresh instance identifier, and a count of constructor
invocations (for "constructed exactly once" properties). -/
structure RState where
  cache : List CacheEntry
  nextId : Nat
  constructions : Nat

/-- The empty resolver state. -/
def initState : RState := ⟨[], 0, 0⟩

/-- First-match lookup in the singleton cache. -/
def cacheLookup : List CacheEntry → String → String → Option RtValue
  | [], _, _ => none
  | e :: rest, o, n =>
      if e.owner = o ∧ e.depName = n then some e.val else cacheLookup rest o n

/-- The environment of module registries, used to follow a config back
into the registry of the module that declared it (spec §4.2: path nodes
are qualified by which Registry/module they were fetched from). -/
abbrev Env := List (String × RegMap)

/-- Lookup of a module's registry in the environment. -/
def lookupEnv : Env → String → Option RegMap
  | [], _ => none
  | (k, r) :: rest, n => if k = n then some r else lookupEnv rest n

/-- The module qualifier of a cycle report: the `belongTo` of the config
of the first node of the cycle segment, looked up in the registry the
traversal was about to use (spec §4.2 item 2). -/
def ownerAt (reg : RegMap) (n : String) : String :=
  match lookupReg reg n with
  | some c => c.belongTo.getD ""
  | none => ""

/-- The closed cycle segment: the sub-path from the first occurrence of
`n` through the current tail, with `n` appended again (spec §4.2 item 1). -/
def cycleSegment (path : List String) (n : String) : List String :=
  path.dropWhile (fun p => p != n) ++ [n]

/-- The cycle report: `"<OwningModuleName>: <n1> -> ... -> <n1>"`
(spec §4.2 item 3). -/
def cycleMessage (reg : RegMap) (n : String) (path : List String) : String :=
  ownerAt reg n ++ ": " ++ String.intercalate " -> " (cycleSegment path n)

/-- Return the stored payload of a `value`/`constant` config as-is. -/
def rtOfDepValue : DepValue → RtValue
  | .lit l => .lit l
  | .cls c => .clsObj c
  | .ref s => .lit (.str s)
  | .thunk _ _ _ _ => .lit (.str "function")

/-- Resolve a list of dependency names left to right with a given
single-name resolver, threading state and stopping at the first error. -/
def resolveList (f : String → RState → Except DIError RtValue × RState) :
    List String → RState → Except DIError (List RtValue) × RState
  | [], s => (.ok [], s)
  | d :: ds, s =>
    match f d s with
    | (.error e, s') => (.error e, s')
    | (.ok v, s') =>
      match resolveList f ds s' with
      | (.error e, s'') => (.error e, s'')
      | (.ok vs, s'') => (.ok (v :: vs), s'')

/-- Strategy dispatch for one looked-up config (spec §4.2 table).
`recur` resolves one name in a given registry against a given path;
`reg'` is the registry of the module the config belongs to, in which its
declared sub-dependencies are looked up. -/
def resolveCfg (recur : RegMap → String → List String → RState →
      Except DIError RtValue × RState)
    (reg' : RegMap) (owner : String) (n : String) (path : List String)
    (s : RState) (cfg : DConf) : Except DIError RtValue × RState :=
  match parseStrategy cfg.strategy with
  | some .value => (.ok (rtOfDepValue cfg.value), s)
  | some .constant => (.ok (rtOfDepValue cfg.value), s)
  | some .alias =>
    match cfg.value with
    | .ref t => recur reg' t path s
    | _ => (.error (.resolution (n ++ ": alias target must be a name")), s)
  | some .singleton =>
    match cfg.value with
    | .cls c =>
      match cacheLookup s.cache owner n with
      | some v => (.ok v, s)
      | none =>
        match resolveList (fun d t => recur reg' d (path ++ [n]) t) c.inject s with
        | (.error e, s₁) => (.error e, s₁)
        | (.ok args, s₁) =>
          let v := RtValue.inst s₁.nextId c.ctorName args
          (.ok v, ⟨⟨owner, n, v⟩ :: s₁.cache, s₁.nextId + 1, s₁.constructions + 1⟩)
    | _ => (.error (.resolution (n ++ ": not constructible")), s)
  | some .factory =>
    match cfg.value with
    | .cls c =>
      match resolveList (fun d t => recur reg' d (path ++ [n]) t) c.inject s with
      | (.error e, s₁) => (.error e, s₁)
      | (.ok args, s₁) =>
        let v := RtValue.inst s₁.nextId c.ctorName args
        (.ok v, ⟨s₁.cache, s₁.nextId + 1, s₁.constructions + 1⟩)
    | _ => (.error (.resolution (n ++ ": not constructible")), s)
  | some .provider => (.error (.resolution (n ++ ": provider is not resolvable")), s)
  | none => (.error (.resolution (n ++ ": unknown strategy")), s)

/-- Modelled from the spec: `resolve(name)` (spec §4.2).  Depth-first
resolution over the registry `reg`, maintaining the ordered resolution
`path`; before descending into a name already on the path, a CycleError
with the owner-qualified closed segment is raised (items 1–3).  A config
fetched from `reg` has its sub-dependencies looked up in the registry of
the module it belongs to (delegating through `env`), as exercised by the
cross-module tests.  `fuel` bounds the recursion depth (the code's stack
bound, spec §5); theorems use enough fuel for the graph at hand. -/
def resolve (env : Env) : Nat → RegMap → String → List String → RState →
    Except DIError RtValue × RState
  | 0, _, _, _, s => (.error (.resolution "resolution too deep"), s)
  | fuel + 1, reg, n, path, s =>
    if n ∈ path then (.error (.cycle (cycleMessage reg n path)), s)
    else
      match lookupReg reg n with
      | none => (.error (.resolution (n ++ ": no config registered")), s)
      | some cfg =>
        let owner := cfg.belongTo.getD ""
        let reg' := (lookupEnv env owner).getD reg
        resolveCfg (fun r d p t => resolve env fuel r d p t) reg' owner n path s cfg

/-- `Injector.resolve(name)` from a clean path. -/
def Injector.resolve (i : Injector) (env : Env) (fuel : Nat) (n : String)
    (s : RState) : Except DIError RtValue × RState :=
  Hekdi.resolve env fuel i.dependencies n [] s

/-- The `exports` field of a module config: absent, the wildcard `'*'`,
or an explicit name list. -/
inductive ExportsSpec where
  | star : ExportsSpec
  | names : List String → ExportsSpec
deriving DecidableEq, Repr

/-- A constructed Module (`src/module.js`): its name, its Injector, and
its export map (absent when the config had no `exports` field). -/
structure Module where
  name : String
  injector : Injector
  exports : Option (List (String × DConf))
deriving DecidableEq, Repr

/-- The configuration passed to the Module constructor
(`src/module.js`): name, declarations (absent modelled as `[]`),
imported modules, and the optional exports field. -/
structure ModuleConfig where
  name : String
  declarations : List DConf := []
  imports : List Module := []
  exports : Option ExportsSpec := none

/-- The import loop of the Module constructor (`src/module.js` lines
13–19): each imported module's export map is merged via `addImports`,
and a module without an `exports` property is silently skipped. -/
def addAllImports : Injector → List Module → Except DIError Injector
  | i, [] => .ok i
  | i, m :: ms =>
    match m.exports with
    | none => addAllImports i ms
    | some ex =>
      match addImports i ex with
      | .error e => .error e
      | .ok i' => addAllImports i' ms

/-- The export-map computation of the Module constructor
(`src/module.js` lines 23–35): `'*'` copies every registered dependency;
an explicit list keeps exactly the configs whose `belongTo` equals the
module's own name (the listed names themselves are not consulted). -/
def computeExports (selfName : String) (deps : RegMap) :
    Option ExportsSpec → Option (List (String × DConf))
  | none => none
  | some .star => some deps
  | some (.names _) => some (deps.filter (fun kv => kv.2.belongTo = some selfName))

/-- The Module constructor (`src/module.js` lines 9–36): build a fresh
Injector named after the module, merge the imports' export maps, register
the own declarations, then compute the export map. -/
def createModule (cfg : ModuleConfig) : Except DIError Module :=
  match addAllImports ⟨cfg.name, []⟩ cfg.imports with
  | .error e => .error e
  | .ok i1 =>
    match register i1 cfg.declarations with
    | (some e, _) => .error e
    | (none, i2) =>
      .ok ⟨cfg.name, i2, computeExports cfg.name i2.dependencies cfg.exports⟩

/-- Environment built from a family of modules: each module's name bound
to its injector's registry. -/
def buildEnv (ms : List Module) : Env :=
  ms.map (fun m => (m.name, m.injector.dependencies))

/-! ## Concrete scenarios

Declarations and modules taken from the spec's §8 scenarios and from
`test/injector.spec.js`, used as concrete instances of the claims. -/

/-- A class-like declaration `name` with strategy `strat` whose `$inject`
list is `deps`. -/
def clsCfg (n strat : String) (deps : List String) : DConf :=
  ⟨n, strat, .cls ⟨n, deps⟩, none⟩

/-- Extract the module of a successful construction (the scenarios below
all construct successfully, certified by the theorems' computed results). -/
def moduleOf (cfg : ModuleConfig) : Module :=
  (createModule cfg).toOption.getD ⟨"", ⟨"", []⟩, none⟩

/-- Spec §8 cross-module scenario, exporting module: `X` declares the
internally cyclic chain `G -> H -> I -> J -> G` and exports `G`. -/
def modXCfg : ModuleConfig :=
  ⟨"X", [clsCfg "G" "factory" ["H"], clsCfg "H" "factory" ["I"],
         clsCfg "I" "factory" ["J"], clsCfg "J" "factory" ["G"]], [],
   some (.names ["G"])⟩

/-- The constructed module `X`. -/
def modX : Module := moduleOf modXCfg

/-- Spec §8 cross-module scenario, importing module: `Y` imports `X` and
reaches `G` through the acyclic local chain `A -> B`. -/
def modYCfg : ModuleConfig :=
  ⟨"Y", [clsCfg "A" "factory" ["B"], clsCfg "B" "factory" ["G"]], [modX],
   some .star⟩

/-- The constructed module `Y`. -/
def modY : Module := moduleOf modYCfg

/-- Resolving `A` from `Y` in the spec §8 cross-module scenario. -/
def crossModuleRun : Except DIError RtValue :=
  (modY.injector.resolve (buildEnv [modX, modY]) 30 "A" initState).1

/-- The three-module chain of `test/injector.spec.js` ("circular
dependency through several modules"): innermost module. -/
def tModXCfg : ModuleConfig :=
  ⟨"Module X",
   [clsCfg "G" "factory" ["OK", "Good", "H"], clsCfg "H" "factory" ["I"],
    clsCfg "I" "factory" ["J"], clsCfg "J" "factory" ["G"],
    ⟨"OK", "constant", .lit (.num 123), none⟩, clsCfg "Good" "singleton" []], [],
   some (.names ["G"])⟩

/-- The constructed innermost test module. -/
def tModX : Module := moduleOf tModXCfg

/-- Middle module of the three-module test chain. -/
def tModYCfg : ModuleConfig :=
  ⟨"Module Y",
   [clsCfg "C" "factory" ["D"], clsCfg "D" "factory" ["E"],
    clsCfg "E" "factory" ["F"], clsCfg "F" "factory" ["G"]], [tModX],
   some (.names ["C", "D"])⟩

/-- The constructed middle test module. -/
def tModY : Module := moduleOf tModYCfg

/-- Outermost module of the three-module test chain. -/
def tModZCfg : ModuleConfig :=
  ⟨"Module Z",
   [clsCfg "A" "factory" ["B"], clsCfg "B" "factory" ["C", "D"]], [tModY],
   some .star⟩

/-- The constructed outermost test module. -/
def tModZ : Module := moduleOf tModZCfg

/-- Resolving `A` from `Module Z` in the three-module test chain. -/
def threeModuleRun : Except DIError RtValue :=
  (tModZ.injector.resolve (buildEnv [tModX, tModY, tModZ]) 30 "A" initState).1

/-- Test scenario "not accept self dependency": `A` declares `A` as its
own dependency. -/
def mainSelfCfg : ModuleConfig :=
  ⟨"MainModule", [clsCfg "A" "singleton" ["A"]], [], some .star⟩

/-- Resolving the self-dependent `A`. -/
def selfDepRun : Except DIError RtValue :=
  ((moduleOf mainSelfCfg).injector.resolve
    (buildEnv [moduleOf mainSelfCfg]) 10 "A" initState).1

/-- Cycle-abort scenario for the cache: `A` (singleton) needs `D` then
`B`; `D` is a dependency-free singleton; `B` needs `A` again. -/
def mod9Cfg : ModuleConfig :=
  ⟨"M", [clsCfg "A" "singleton" ["D", "B"], clsCfg "D" "singleton" [],
         clsCfg "B" "singleton" ["A"]], [], some .star⟩

/-- The constructed cycle-abort module. -/
def mod9 : Module := moduleOf mod9Cfg

/-- Resolving `A` in the cycle-abort scenario, keeping the final state. -/
def mod9Run : Except DIError RtValue × RState :=
  mod9.injector.resolve (buildEnv [mod9]) 10 "A" initState

/-- The test's `Dependency1` registered as a singleton. -/
def regS : RegMap :=
  (register ⟨"MOCK", []⟩ [⟨"D1", "singleton", .cls ⟨"Dependency1", []⟩, none⟩]).2.dependencies

/-- The test's `Dependency1` registered as a factory. -/
def regF : RegMap :=
  (register ⟨"MOCK", []⟩ [⟨"D1", "factory", .cls ⟨"Dependency1", []⟩, none⟩]).2.dependencies

/-- A well-formed declaration (the test's `Dependency1` as `D1`). -/
def goodCfg : DConf := ⟨"D1", "singleton", .cls ⟨"Dependency1", []⟩, none⟩

/-- The test's unknown-strategy declaration (`strategy: 'blablabla'`). -/
def badCfg : DConf := ⟨"D2", "blablabla", .cls ⟨"Dependency1", []⟩, none⟩

/-- The test's constant declaration `D1 = '123'`. -/
def constCfg : DConf := ⟨"D1", "constant", .lit (.str "123"), none⟩

/-- The test's conflicting re-registration `D1 = '12'` under `value`. -/
def valCfg : DConf := ⟨"D1", "value", .lit (.str "12"), none⟩

/-- An injector holding the constant `D1`. -/
def constInj : Injector := (register ⟨"MOCK", []⟩ [constCfg]).2

/-- The test's provider producing the factory config `Y`. -/
def provCfg : DConf :=
  ⟨"TestProvider", "provider", .thunk "Y" "factory" (.cls ⟨"Y", []⟩) none, none⟩

/-- The test's provider whose produced config is itself a provider. -/
def provProvCfg : DConf :=
  ⟨"X", "provider", .thunk "" "provider" (.lit (.str "V")) none, none⟩

/-- A module exporting the name `N` with value `"imported"`. -/
def impModCfg : ModuleConfig :=
  ⟨"Imp", [⟨"N", "value", .lit (.str "imported"), none⟩], [], some .star⟩

/-- A module importing `Imp` and locally re-declaring `N` as `"local"`. -/
def locModCfg : ModuleConfig :=
  ⟨"Loc", [⟨"N", "value", .lit (.str "local"), none⟩], [moduleOf impModCfg],
   some .star⟩

/-- Resolving the collided name `N` from the importing module. -/
def overrideRun : Except DIError RtValue :=
  ((moduleOf locModCfg).injector.resolve
    (buildEnv [moduleOf impModCfg, moduleOf locModCfg]) 10 "N" initState).1

/-- A module config without an `exports` field. -/
def noExpCfg : ModuleConfig :=
  ⟨"NoExp", [⟨"Q", "value", .lit (.num 1), none⟩], [], none⟩

/-- A registry owning `B` (for instantiating the cycle-format theorem on
an explicit path). -/
def regBW : RegMap := (register ⟨"M", []⟩ [clsCfg "B" "factory" []]).2.dependencies

/-! ## Basic registry lemmas -/

theorem lookupReg_insertReg (reg : RegMap) (k : String) (c : DConf) (q : String) :
    lookupReg (insertReg reg k c) q = if k = q then some c else lookupReg reg q := by
  induction reg with
  | nil => simp [insertReg, lookupReg]
  | cons kc rest ih =>
    obtain ⟨k', c'⟩ := kc
    by_cases hk : k' = k
    · subst hk
      by_cases hq : k' = q <;> simp [insertReg, lookupReg, hq]
    · by_cases hq : k' = q
      · subst hq
        have : ¬ k = k' := fun h => hk h.symm
        simp [insertReg, lookupReg, hk, this]
      · simp [insertReg, lookupReg, hk, hq, ih]

/-- `registerOne` leaves the injector's own name unchanged. -/
theorem registerOne_name (i : Injector) (c : DConf) (i' : Injector)
    (h : registerOne i c = .ok i') : i'.name = i.name := by
  unfold registerOne at h
  repeat' split at h
  all_goals cases h
  all_goals rfl

/-- `register` leaves the injector's own name unchanged. -/
theorem register_name (cs : List DConf) (i : Injector) :
    ((register i cs).2).name = i.name := by
  induction cs generalizing i with
  | nil => rfl
  | cons c rest ih =>
    unfold register
    cases h : registerOne i c with
    | error e => rfl
    | ok i' => simpa [registerOne_name i c i' h] using ih i'

/-! ## Claim theorems -/

/-- C1: a resolve that detects a cycle whose cyclic declarations
originate in an imported module reports a CycleError qualified by the
`belongTo` of the first node of the cycle segment (the owning module),
and the reported path holds only the names of the cycle segment, with no
residue of the importing module's own acyclic chain.  First conjunct:
the spec §8 scenario (X owns `G -> H -> I -> J -> G`, resolution starts
at `Y`'s local chain `A -> B`).  Second conjunct: the three-module test
chain, where resolution starts two imports away from the owning module. -/
theorem cross_module_cycle_qualified_by_owner :
    crossModuleRun = .error (.cycle "X: G -> H -> I -> J -> G")
    ∧ threeModuleRun = .error (.cycle "Module X: G -> H -> I -> J -> G") :=
  ⟨rfl, rfl⟩

/-- C2: descending into a name already on the resolution path raises a
CycleError whose message is exactly
`"<OwningModuleName>: <name1> -> ... -> <name1>"`, the names being the
sub-path from the first occurrence of that name through the current tail
with the name appended again; a self-dependent name yields the
one-element cycle `"<ModuleName>: X -> X"` (second conjunct, the test's
`MainModule` scenario). -/
theorem cycle_error_message_format :
    (∀ (env : Env) (fuel : Nat) (reg : RegMap) (n : String)
        (path : List String) (s : RState),
      n ∈ path →
      resolve env (fuel + 1) reg n path s =
        (.error (.cycle (ownerAt reg n ++ ": " ++
          String.intercalate " -> " (path.dropWhile (fun p => p != n) ++ [n]))), s))
    ∧ selfDepRun = .error (.cycle "MainModule: A -> A") := by
  refine ⟨?_, rfl⟩
  intro env fuel reg n path s h
  simp only [resolve, if_pos h]
  rfl

/-- A strategy string parsing to a non-provider kind is not `"provider"`. -/
theorem parse_ne_provider {s : String} {st : Strategy}
    (hp : parseStrategy s = some st) (hne : st ≠ .provider) : s ≠ "provider" := by
  intro h
  rw [h] at hp
  simp only [parseStrategy, Option.some.injEq] at hp
  exact hne hp.symm

/-- Looking up after `store`: the stored config (with `belongTo` tagged)
at its name, the previous registry elsewhere. -/
theorem lookupReg_store (i : Injector) (c : DConf) (q : String) :
    lookupReg (store i c).dependencies q =
      if c.name = q then some ({ c with belongTo := some (c.belongTo.getD i.name) })
      else lookupReg i.dependencies q := by
  simp [store, lookupReg_insertReg]

/-- `registerOne` never stores a config whose strategy is `provider`:
a provider is consumed and replaced by the config it produces. -/
theorem registerOne_no_provider (i : Injector) (c : DConf) (i' : Injector)
    (h : registerOne i c = .ok i')
    (hi : ∀ k cfg, lookupReg i.dependencies k = some cfg → cfg.strategy ≠ "provider") :
    ∀ k cfg, lookupReg i'.dependencies k = some cfg → cfg.strategy ≠ "provider" := by
  intro k cfg hk
  unfold registerOne at h
  repeat' split at h
  all_goals cases h
  · rw [lookupReg_store] at hk
    split at hk
    · cases hk
      intro habs
      simp_all [parseStrategy]
    · exact hi k cfg hk
  · rw [lookupReg_store] at hk
    split at hk
    · cases hk
      intro habs
      simp_all [parseStrategy]
    · exact hi k cfg hk

/-- C4: registering a config under a name already registered with
strategy `constant` raises a ConfigurationError (constants are
write-once, as the test's re-registration of `D1` shows), while
re-registering a name whose existing config is non-constant silently
overwrites it (last write wins). -/
theorem register_constant_write_once :
    (∀ (i : Injector) (c old : DConf),
      lookupReg i.dependencies c.name = some old → old.strategy = "constant" →
      ∃ msg, registerOne i c = .error (.config msg))
    ∧ (∀ (i : Injector) (c old : DConf) (st : Strategy),
      lookupReg i.dependencies c.name = some old → old.strategy ≠ "constant" →
      parseStrategy c.strategy = some st → st ≠ .provider →
      registerOne i c = .ok (store i c)) := by
  constructor
  · intro i c old hl hc
    have hcc : constantConflict i c.name = true := by
      simp [constantConflict, hl, hc]
    unfold registerOne
    cases hp : parseStrategy c.strategy with
    | none => exact ⟨_, rfl⟩
    | some st =>
      refine ⟨c.name ++ ": constant is already defined", ?_⟩
      simp [hcc]
  · intro i c old st hl hc hp hst
    have hcc : ¬ constantConflict i c.name = true := by
      simp [constantConflict, hl, hc]
    unfold registerOne
    rw [hp]
    simp [hcc, hst]

/-- Witness for C4: re-registering the constant `D1` under `value`
errors (the test's scenario), while registering the constant over the
non-constant `value` config overwrites it silently. -/
theorem register_constant_write_once_witness :
    (∃ msg, registerOne constInj valCfg = .error (.config msg))
    ∧ registerOne (register ⟨"MOCK", []⟩ [valCfg]).2 constCfg =
        .ok (store (register ⟨"MOCK", []⟩ [valCfg]).2 constCfg) := by
  constructor
  · exact register_constant_write_once.1 constInj valCfg
      ⟨"D1", "constant", .lit (.str "123"), some "MOCK"⟩ rfl rfl
  · exact register_constant_write_once.2 _ constCfg
      ⟨"D1", "value", .lit (.str "12"), some "MOCK"⟩ .constant rfl
      (by decide) rfl (by decide)

/-- C5: a provider's value function is consumed at registration: the
produced config is stored in its place (first conjunct), a produced
config that is itself a provider fails registration (second conjunct),
and no registry reachable by `register` ever stores a provider-strategy
config (third conjunct) — so `resolve`, which only reads stored configs,
can never invoke a provider. -/
theorem provider_consumed_at_registration :
    (∀ (i : Injector) (c : DConf) (n stS : String) (v : DepValue)
        (b : Option String) (st' : Strategy),
      c.strategy = "provider" → c.value = .thunk n stS v b →
      constantConflict i c.name = false → constantConflict i n = false →
      parseStrategy stS = some st' → st' ≠ .provider →
      registerOne i c = .ok (store i ⟨n, stS, v, b⟩))
    ∧ (∀ (i : Injector) (c : DConf) (n : String) (v : DepValue) (b : Option String),
      c.strategy = "provider" → c.value = .thunk n "provider" v b →
      constantConflict i c.name = false →
      registerOne i c = .error (.config "Provider must not return a provider config"))
    ∧ (∀ (i : Injector) (cs : List DConf) (r : Option DIError) (i' : Injector),
      register i cs = (r, i') →
      (∀ k cfg, lookupReg i.dependencies k = some cfg → cfg.strategy ≠ "provider") →
      ∀ k cfg, lookupReg i'.dependencies k = some cfg → cfg.strategy ≠ "provider") := by
  refine ⟨?_, ?_, ?_⟩
  · intro i c n stS v b st' hs hv hcc hcn hp hst
    unfold registerOne
    rw [hs, hv]
    have hps : parseStrategy "provider" = some .provider := rfl
    simp [hps, hcc, hp, hst, hcn]
  · intro i c n v b hs hv hcc
    unfold registerOne
    rw [hs, hv]
    have hps : parseStrategy "provider" = some .provider := rfl
    simp [hps, hcc]
  · intro i cs
    induction cs generalizing i with
    | nil =>
      intro r i' h hi
      cases h
      exact hi
    | cons c rest ih =>
      intro r i' h hi
      unfold register at h
      cases hro : registerOne i c with
      | error e =>
        rw [hro] at h
        cases h
        exact hi
      | ok i₁ =>
        rw [hro] at h
        exact ih i₁ r i' h (registerOne_no_provider i c i₁ hro hi)

/-- Witness for C5: the test's `TestProvider` provider registers the
factory config `Y` in its place, and the test's provider-returns-provider
config fails. -/
theorem provider_consumed_at_registration_witness :
    registerOne ⟨"MOCK", []⟩ provCfg =
      .ok (store ⟨"MOCK", []⟩ ⟨"Y", "factory", .cls ⟨"Y", []⟩, none⟩)
    ∧ registerOne ⟨"MOCK", []⟩ provProvCfg =
        .error (.config "Provider must not return a provider config")
    ∧ (∀ k cfg, lookupReg (register ⟨"MOCK", []⟩ [provCfg]).2.dependencies k = some cfg →
        cfg.strategy ≠ "provider") := by
  refine ⟨?_, ?_, ?_⟩
  · exact provider_consumed_at_registration.1 ⟨"MOCK", []⟩ provCfg "Y" "factory"
      (.cls ⟨"Y", []⟩) none .factory rfl rfl rfl rfl rfl (by decide)
  · exact provider_consumed_at_registration.2.1 ⟨"MOCK", []⟩ provProvCfg ""
      (.lit (.str "V")) none rfl rfl rfl
  · exact provider_consumed_at_registration.2.2 ⟨"MOCK", []⟩ [provCfg] none _ rfl
      (by intro k cfg h; cases h)

/-- C6 counterexample: a `register` call whose second config has the
unknown strategy `blablabla` raises a ConfigurationError, but the first
config of the same call stays registered — the registry is *not*
unchanged from its state before the call. -/
theorem register_unknown_strategy_counterexample :
    (register ⟨"MOCK", []⟩ [goodCfg, badCfg]).1 =
      some (.config "Unknown strategy: blablabla")
    ∧ (register ⟨"MOCK", []⟩ [goodCfg, badCfg]).2 ≠ (⟨"MOCK", []⟩ : Injector) :=
  ⟨rfl, by decide⟩

/-- C6 (amended): a `register` call that fails raises the error of the
first offending config; configs preceding it in the same call stay
registered, and nothing from the offending config onward is registered —
in particular, when the offending config comes first, the registry is
unchanged. -/
theorem register_unknown_strategy_amended :
    ∀ (i : Injector) (cs : List DConf) (e : DIError) (j : Injector),
      register i cs = (some e, j) →
      ∃ pre c post, cs = pre ++ c :: post ∧ register i pre = (none, j)
        ∧ registerOne j c = .error e := by
  intro i cs
  induction cs generalizing i with
  | nil =>
    intro e j h
    simp [register] at h
  | cons c rest ih =>
    intro e j h
    unfold register at h
    cases hro : registerOne i c with
    | error e' =>
      rw [hro] at h
      simp only [Prod.mk.injEq, Option.some.injEq] at h
      obtain ⟨he, hj⟩ := h
      subst he
      subst hj
      exact ⟨[], c, rest, rfl, rfl, hro⟩
    | ok i₁ =>
      rw [hro] at h
      obtain ⟨pre, c', post, hcs, hreg, hone⟩ := ih i₁ e j h
      refine ⟨c :: pre, c', post, by simp [hcs], ?_, hone⟩
      unfold register
      rw [hro]
      exact hreg

/-- Witness for C6 (amended): on the test's call `[goodCfg, badCfg]`,
the prefix `[goodCfg]` is registered and the unknown-strategy config is
the offender. -/
theorem register_unknown_strategy_amended_witness :
    ∃ pre c post, ([goodCfg, badCfg] : List DConf) = pre ++ c :: post
      ∧ register ⟨"MOCK", []⟩ pre = (none, (register ⟨"MOCK", []⟩ [goodCfg, badCfg]).2)
      ∧ registerOne (register ⟨"MOCK", []⟩ [goodCfg, badCfg]).2 c =
          .error (.config "Unknown strategy: blablabla") :=
  register_unknown_strategy_amended _ _ _ _ rfl

/-- A cache entry for a different dependency name does not affect lookup. -/
theorem cacheLookup_cons_ne (o' n' : String) (v : RtValue) (c : List CacheEntry)
    (o q : String) (h : n' ≠ q) :
    cacheLookup (⟨o', n', v⟩ :: c) o q = cacheLookup c o q := by
  simp [cacheLookup, h]

/-- `resolveList` is monotone in the fresh-identifier counter when the
underlying resolver is. -/
theorem resolveList_mono (f : String → RState → Except DIError RtValue × RState)
    (hf : ∀ d s, s.nextId ≤ ((f d s).2).nextId) :
    ∀ (ds : List String) (s : RState), s.nextId ≤ ((resolveList f ds s).2).nextId := by
  intro ds
  induction ds with
  | nil => intro s; exact le_refl _
  | cons d ds ih =>
    intro s
    have h1 := hf d s
    cases hfd : f d s with
    | mk r s' =>
      rw [hfd] at h1
      cases r with
      | error e => simp only [resolveList, hfd]; exact h1
      | ok v =>
        have h2 := ih s'
        cases hrl : resolveList f ds s' with
        | mk r2 s'' =>
          rw [hrl] at h2
          cases r2 with
          | error e => simp only [resolveList, hfd, hrl]; exact le_trans h1 h2
          | ok vs => simp only [resolveList, hfd, hrl]; exact le_trans h1 h2

/-- `resolveCfg` is monotone in the fresh-identifier counter when the
recursive resolver is. -/
theorem resolveCfg_mono
    (recur : RegMap → String → List String → RState → Except DIError RtValue × RState)
    (hr : ∀ r d p t, t.nextId ≤ ((recur r d p t).2).nextId)
    (reg' : RegMap) (owner n : String) (path : List String) (s : RState) (cfg : DConf) :
    s.nextId ≤ ((resolveCfg recur reg' owner n path s cfg).2).nextId := by
  have hlist : ∀ (ds : List String) (t : RState) (r : Except DIError (List RtValue))
      (u : RState), resolveList (fun d u => recur reg' d (path ++ [n]) u) ds t = (r, u) →
      t.nextId ≤ u.nextId := by
    intro ds t r u hru
    have := resolveList_mono _ (fun d u => hr reg' d (path ++ [n]) u) ds t
    rw [hru] at this
    exact this
  unfold resolveCfg
  repeat' split
  all_goals try exact le_refl _
  · exact hr reg' _ path s
  all_goals rename_i a s2 heq
  all_goals dsimp only
  all_goals first
    | exact hlist _ s _ _ heq
    | exact le_trans (hlist _ s _ _ heq) (Nat.le_succ _)

/-- `resolve` never decreases the fresh-identifier counter. -/
theorem resolve_mono (env : Env) : ∀ (fuel : Nat) (reg : RegMap) (n : String)
    (path : List String) (s : RState),
    s.nextId ≤ ((resolve env fuel reg n path s).2).nextId := by
  intro fuel
  induction fuel with
  | zero => intro reg n path s; exact le_refl _
  | succ fuel ih =>
    intro reg n path s
    simp only [resolve]
    split
    · exact le_refl _
    · split
      · exact le_refl _
      · exact resolveCfg_mono _ (fun r d p t => ih r d p t) _ _ n path s _

/-- `resolveList` preserves cache lookups at the protected names when the
underlying resolver does. -/
theorem resolveList_cache (f : String → RState → Except DIError RtValue × RState)
    (ps : List String)
    (hf : ∀ d t o q, q ∈ ps →
      cacheLookup ((f d t).2).cache o q = cacheLookup t.cache o q) :
    ∀ (ds : List String) (s : RState) (o q : String), q ∈ ps →
      cacheLookup ((resolveList f ds s).2).cache o q = cacheLookup s.cache o q := by
  intro ds
  induction ds with
  | nil => intro s o q hq; rfl
  | cons d ds ih =>
    intro s o q hq
    have h1 := hf d s o q hq
    cases hfd : f d s with
    | mk r s' =>
      rw [hfd] at h1
      cases r with
      | error e => simp only [resolveList, hfd]; exact h1
      | ok v =>
        have h2 := ih s' o q hq
        cases hrl : resolveList f ds s' with
        | mk r2 s'' =>
          rw [hrl] at h2
          cases r2 with
          | error e => simp only [resolveList, hfd, hrl]; exact h2.trans h1
          | ok vs => simp only [resolveList, hfd, hrl]; exact h2.trans h1

/-- `resolveCfg` preserves cache lookups at every name on the current
path: an aborted or completed dispatch never (re)caches a name that is
still being resolved. -/
theorem resolveCfg_cache
    (recur : RegMap → String → List String → RState → Except DIError RtValue × RState)
    (hr : ∀ r d p t o q, q ∈ p →
      cacheLookup ((recur r d p t).2).cache o q = cacheLookup t.cache o q)
    (reg' : RegMap) (owner n : String) (path : List String) (s : RState) (cfg : DConf)
    (hn : n ∉ path) :
    ∀ o q, q ∈ path →
      cacheLookup ((resolveCfg recur reg' owner n path s cfg).2).cache o q =
        cacheLookup s.cache o q := by
  intro o q hq
  have hqn : n ≠ q := fun h => hn (h ▸ hq)
  have hlist : ∀ (ds : List String) (t : RState) (r : Except DIError (List RtValue))
      (u : RState), resolveList (fun d u => recur reg' d (path ++ [n]) u) ds t = (r, u) →
      cacheLookup u.cache o q = cacheLookup t.cache o q := by
    intro ds t r u hru
    have := resolveList_cache _ (path ++ [n])
      (fun d u o' q' hq' => hr reg' d (path ++ [n]) u o' q' hq') ds t o q
      (List.mem_append_left _ hq)
    rw [hru] at this
    exact this
  unfold resolveCfg
  repeat' split
  all_goals try rfl
  · exact hr reg' _ path s o q hq
  all_goals rename_i a s2 heq
  all_goals dsimp only
  all_goals first
    | exact hlist _ s _ _ heq
    | exact (cacheLookup_cons_ne owner n _ _ o q hqn).trans (hlist _ s _ _ heq)

/-- `resolve` preserves cache lookups at every name on the current path. -/
theorem resolve_cache (env : Env) : ∀ (fuel : Nat) (reg : RegMap) (n : String)
    (path : List String) (s : RState) (o q : String), q ∈ path →
    cacheLookup ((resolve env fuel reg n path s).2).cache o q =
      cacheLookup s.cache o q := by
  intro fuel
  induction fuel with
  | zero => intro reg n path s o q hq; rfl
  | succ fuel ih =>
    intro reg n path s o q hq
    simp only [resolve]
    split
    · rfl
    · split
      · rfl
      · rename_i hmem x cfg heq
        exact resolveCfg_cache _ (fun r d p t o' q' hq' => ih r d p t o' q' hq')
          _ _ n path s _ hmem o q hq

/-- A failed non-alias resolve also leaves the cache unchanged at the
name being resolved (it was never constructed, hence never cached). -/
theorem resolve_error_root_cache (env : Env) (fuel : Nat) (reg : RegMap) (n : String)
    (path : List String) (s : RState) (e : DIError) (s' : RState) (cfg : DConf)
    (h : resolve env (fuel + 1) reg n path s = (.error e, s'))
    (hl : lookupReg reg n = some cfg)
    (hna : parseStrategy cfg.strategy ≠ some .alias) :
    ∀ o, cacheLookup s'.cache o n = cacheLookup s.cache o n := by
  intro o
  simp only [resolve] at h
  by_cases hmem : n ∈ path
  · rw [if_pos hmem] at h
    simp only [Prod.mk.injEq] at h
    rw [← h.2]
  · rw [if_neg hmem, hl] at h
    have h2 : resolveCfg (fun r d p t => resolve env fuel r d p t)
        ((lookupEnv env (cfg.belongTo.getD "")).getD reg) (cfg.belongTo.getD "")
        n path s cfg = (.error e, s') := h
    have hlist : ∀ (ds : List String) (t : RState) (r : Except DIError (List RtValue))
        (u : RState) (reg2 : RegMap),
        resolveList (fun d t => resolve env fuel reg2 d (path ++ [n]) t) ds t = (r, u) →
        cacheLookup u.cache o n = cacheLookup t.cache o n := by
      intro ds t r u reg2 hru
      have := resolveList_cache _ (path ++ [n])
        (fun d t o' q' hq' => resolve_cache env fuel reg2 d (path ++ [n]) t o' q' hq')
        ds t o n (by simp)
      rw [hru] at this
      exact this
    unfold resolveCfg at h2
    split at h2
    on_goal 3 =>
      rename_i heq
      exact absurd heq hna
    all_goals repeat' split at h2
    all_goals first
      | (simp at h2
         done)
      | (simp only [Prod.mk.injEq] at h2
         rw [← h2.2]
         done)
      | (simp only [Prod.mk.injEq] at h2
         rw [← h2.2]
         exact hlist _ s _ _ _ (by assumption))

/-- A `singleton`/`factory` config whose payload is not a class fails to
resolve with a resolution error and an unchanged state. -/
theorem resolve_cls_required (env : Env) (fuel : Nat) (reg : RegMap) (n : String)
    (path : List String) (s : RState) (cfg : DConf)
    (hmem : n ∉ path) (hl : lookupReg reg n = some cfg)
    (hp : parseStrategy cfg.strategy = some .singleton ∨
      parseStrategy cfg.strategy = some .factory)
    (hv : ∀ cd, cfg.value ≠ .cls cd) :
    resolve env (fuel + 1) reg n path s =
      (.error (.resolution (n ++ ": not constructible")), s) := by
  simp only [resolve]
  rw [if_neg hmem, hl]
  show resolveCfg _ _ _ _ _ _ cfg = _
  unfold resolveCfg
  rcases hp with hp | hp
  · rw [hp]
    cases hcv : cfg.value with
    | cls cd => exact absurd hcv (hv cd)
    | lit l => rfl
    | ref t => rfl
    | thunk a b c d => rfl
  · rw [hp]
    cases hcv : cfg.value with
    | cls cd => exact absurd hcv (hv cd)
    | lit l => rfl
    | ref t => rfl
    | thunk a b c d => rfl

/-- Unfolding of `resolve` on a class-valued `singleton` config. -/
theorem resolve_singleton_branch (env : Env) (fuel : Nat) (reg : RegMap) (n : String)
    (path : List String) (s : RState) (cfg : DConf) (c : ClassDef)
    (hmem : n ∉ path) (hl : lookupReg reg n = some cfg)
    (hp : parseStrategy cfg.strategy = some .singleton) (hv : cfg.value = .cls c) :
    resolve env (fuel + 1) reg n path s =
      (match cacheLookup s.cache (cfg.belongTo.getD "") n with
       | some v => (.ok v, s)
       | none =>
         match resolveList (fun d t => resolve env fuel
             ((lookupEnv env (cfg.belongTo.getD "")).getD reg) d (path ++ [n]) t)
             c.inject s with
         | (.error e, s₁) => (.error e, s₁)
         | (.ok args, s₁) =>
           (.ok (RtValue.inst s₁.nextId c.ctorName args),
            ⟨⟨cfg.belongTo.getD "", n, RtValue.inst s₁.nextId c.ctorName args⟩ :: s₁.cache,
             s₁.nextId + 1, s₁.constructions + 1⟩)) := by
  simp only [resolve]
  rw [if_neg hmem, hl]
  show resolveCfg _ _ _ _ _ _ cfg = _
  unfold resolveCfg
  rw [hp, hv]

/-- Unfolding of `resolve` on a class-valued `factory` config. -/
theorem resolve_factory_branch (env : Env) (fuel : Nat) (reg : RegMap) (n : String)
    (path : List String) (s : RState) (cfg : DConf) (c : ClassDef)
    (hmem : n ∉ path) (hl : lookupReg reg n = some cfg)
    (hp : parseStrategy cfg.strategy = some .factory) (hv : cfg.value = .cls c) :
    resolve env (fuel + 1) reg n path s =
      (match resolveList (fun d t => resolve env fuel
           ((lookupEnv env (cfg.belongTo.getD "")).getD reg) d (path ++ [n]) t)
           c.inject s with
       | (.error e, s₁) => (.error e, s₁)
       | (.ok args, s₁) =>
         (.ok (RtValue.inst s₁.nextId c.ctorName args),
          ⟨s₁.cache, s₁.nextId + 1, s₁.constructions + 1⟩)) := by
  simp only [resolve]
  rw [if_neg hmem, hl]
  show resolveCfg _ _ _ _ _ _ cfg = _
  unfold resolveCfg
  rw [hp, hv]

/-- C3: a name registered under `singleton` is constructed exactly once:
after a successful resolve, resolving it again returns the identical
instance with the state unchanged (no further construction).  A name
registered under `factory` yields a distinct instance on every resolve
(second conjunct); for a dependency-free class (a deterministic
constructor) the two factory instances agree on everything but their
identity, and nothing is cached (third conjunct). -/
theorem singleton_factory_strategies :
    (∀ (env : Env) (reg : RegMap) (n : String) (cfg : DConf) (fuel fuel' : Nat)
        (s s' : RState) (v : RtValue),
      lookupReg reg n = some cfg → cfg.strategy = "singleton" →
      resolve env (fuel + 1) reg n [] s = (.ok v, s') →
      resolve env (fuel' + 1) reg n [] s' = (.ok v, s'))
    ∧ (∀ (env : Env) (reg : RegMap) (n : String) (cfg : DConf) (fuel fuel' : Nat)
        (s s₁ s₂ : RState) (v₁ v₂ : RtValue),
      lookupReg reg n = some cfg → cfg.strategy = "factory" →
      resolve env (fuel + 1) reg n [] s = (.ok v₁, s₁) →
      resolve env (fuel' + 1) reg n [] s₁ = (.ok v₂, s₂) →
      v₁ ≠ v₂)
    ∧ (∀ (env : Env) (reg : RegMap) (n : String) (cfg : DConf) (c : ClassDef)
        (fuel fuel' : Nat) (s s₁ s₂ : RState) (v₁ v₂ : RtValue),
      lookupReg reg n = some cfg → cfg.strategy = "factory" →
      cfg.value = .cls c → c.inject = [] →
      resolve env (fuel + 1) reg n [] s = (.ok v₁, s₁) →
      resolve env (fuel' + 1) reg n [] s₁ = (.ok v₂, s₂) →
      v₁ = .inst s.nextId c.ctorName [] ∧ v₂ = .inst s₁.nextId c.ctorName []
        ∧ s.nextId ≠ s₁.nextId ∧ s₁.cache = s.cache ∧ s₂.cache = s₁.cache
        ∧ s₁.constructions = s.constructions + 1) := by
  refine ⟨?_, ?_, ?_⟩
  · intro env reg n cfg fuel fuel' s s' v hl hs h1
    have hp : parseStrategy cfg.strategy = some Strategy.singleton := by
      rw [hs]; rfl
    cases hcv : cfg.value with
    | cls c =>
      rw [resolve_singleton_branch env fuel reg n [] s cfg c
        (List.not_mem_nil n) hl hp hcv] at h1
      rw [resolve_singleton_branch env fuel' reg n [] s' cfg c
        (List.not_mem_nil n) hl hp hcv]
      cases hcache : cacheLookup s.cache (cfg.belongTo.getD "") n with
      | some w =>
        rw [hcache] at h1
        simp only [Prod.mk.injEq, Except.ok.injEq] at h1
        obtain ⟨hw, hss⟩ := h1
        subst hw
        subst hss
        simp [hcache]
      | none =>
        rw [hcache] at h1
        cases hrl : resolveList (fun d t => resolve env fuel
            ((lookupEnv env (cfg.belongTo.getD "")).getD reg) d ([] ++ [n]) t)
            c.inject s with
        | mk r s₁ =>
          rw [hrl] at h1
          cases r with
          | error e => simp at h1
          | ok args =>
            simp only [Prod.mk.injEq, Except.ok.injEq] at h1
            obtain ⟨hv1, hs1⟩ := h1
            subst hv1
            subst hs1
            simp [cacheLookup]
    | lit l =>
      rw [resolve_cls_required env fuel reg n [] s cfg (List.not_mem_nil n) hl
        (Or.inl hp) (by intro cd habs; rw [hcv] at habs; cases habs)] at h1
      simp at h1
    | ref t =>
      rw [resolve_cls_required env fuel reg n [] s cfg (List.not_mem_nil n) hl
        (Or.inl hp) (by intro cd habs; rw [hcv] at habs; cases habs)] at h1
      simp at h1
    | thunk a b c2 d =>
      rw [resolve_cls_required env fuel reg n [] s cfg (List.not_mem_nil n) hl
        (Or.inl hp) (by intro cd habs; rw [hcv] at habs; cases habs)] at h1
      simp at h1
  · intro env reg n cfg fuel fuel' s s₁ s₂ v₁ v₂ hl hs h1 h2
    have hp : parseStrategy cfg.strategy = some Strategy.factory := by
      rw [hs]; rfl
    cases hcv : cfg.value with
    | cls c =>
      rw [resolve_factory_branch env fuel reg n [] s cfg c
        (List.not_mem_nil n) hl hp hcv] at h1
      rw [resolve_factory_branch env fuel' reg n [] s₁ cfg c
        (List.not_mem_nil n) hl hp hcv] at h2
      cases hrl1 : resolveList (fun d t => resolve env fuel
          ((lookupEnv env (cfg.belongTo.getD "")).getD reg) d ([] ++ [n]) t)
          c.inject s with
      | mk r1 sM1 =>
        rw [hrl1] at h1
        cases r1 with
        | error e => simp at h1
        | ok args1 =>
          simp only [Prod.mk.injEq, Except.ok.injEq] at h1
          obtain ⟨hv1, hs1⟩ := h1
          cases hrl2 : resolveList (fun d t => resolve env fuel'
              ((lookupEnv env (cfg.belongTo.getD "")).getD reg) d ([] ++ [n]) t)
              c.inject s₁ with
          | mk r2 sM2 =>
            rw [hrl2] at h2
            cases r2 with
            | error e => simp at h2
            | ok args2 =>
              simp only [Prod.mk.injEq, Except.ok.injEq] at h2
              obtain ⟨hv2, hs2⟩ := h2
              have hmono : s₁.nextId ≤ sM2.nextId := by
                have hm := resolveList_mono (fun d t => resolve env fuel'
                    ((lookupEnv env (cfg.belongTo.getD "")).getD reg) d ([] ++ [n]) t)
                  (fun d t => resolve_mono env fuel' _ d ([] ++ [n]) t) c.inject s₁
                rw [hrl2] at hm
                exact hm
              have hstep : s₁.nextId = sM1.nextId + 1 := by rw [← hs1]
              intro heq
              rw [← hv1, ← hv2] at heq
              injection heq with hid hcn hargs
              omega
    | lit l =>
      rw [resolve_cls_required env fuel reg n [] s cfg (List.not_mem_nil n) hl
        (Or.inr hp) (by intro cd habs; rw [hcv] at habs; cases habs)] at h1
      simp at h1
    | ref t =>
      rw [resolve_cls_required env fuel reg n [] s cfg (List.not_mem_nil n) hl
        (Or.inr hp) (by intro cd habs; rw [hcv] at habs; cases habs)] at h1
      simp at h1
    | thunk a b c2 d =>
      rw [resolve_cls_required env fuel reg n [] s cfg (List.not_mem_nil n) hl
        (Or.inr hp) (by intro cd habs; rw [hcv] at habs; cases habs)] at h1
      simp at h1
  · intro env reg n cfg c fuel fuel' s s₁ s₂ v₁ v₂ hl hs hcv hinj h1 h2
    have hp : parseStrategy cfg.strategy = some Strategy.factory := by
      rw [hs]; rfl
    rw [resolve_factory_branch env fuel reg n [] s cfg c
      (List.not_mem_nil n) hl hp hcv, hinj] at h1
    rw [resolve_factory_branch env fuel' reg n [] s₁ cfg c
      (List.not_mem_nil n) hl hp hcv, hinj] at h2
    simp only [resolveList] at h1 h2
    simp only [Prod.mk.injEq, Except.ok.injEq] at h1 h2
    obtain ⟨hv1, hs1⟩ := h1
    obtain ⟨hv2, hs2⟩ := h2
    have hstep : s₁.nextId = s.nextId + 1 := by rw [← hs1]
    refine ⟨hv1.symm, hv2.symm, by omega, by rw [← hs1], by rw [← hs2], by rw [← hs1]⟩

/-- Witness for C3, on the test's `Dependency1` configs: the second
resolve of the singleton `D1` returns the cached instance and leaves the
state untouched; two factory resolves return instances with distinct
identities; and the factory run caches nothing. -/
theorem singleton_factory_strategies_witness :
    resolve [] 5 regS "D1" [] ⟨[⟨"MOCK", "D1", .inst 0 "Dependency1" []⟩], 1, 1⟩ =
      (.ok (.inst 0 "Dependency1" []), ⟨[⟨"MOCK", "D1", .inst 0 "Dependency1" []⟩], 1, 1⟩)
    ∧ (RtValue.inst 0 "Dependency1" []) ≠ (RtValue.inst 1 "Dependency1" [])
    ∧ (⟨[], 1, 1⟩ : RState).cache = initState.cache := by
  refine ⟨?_, ?_, ?_⟩
  · exact singleton_factory_strategies.1 [] regS "D1"
      ⟨"D1", "singleton", .cls ⟨"Dependency1", []⟩, some "MOCK"⟩ 4 4 initState
      ⟨[⟨"MOCK", "D1", .inst 0 "Dependency1" []⟩], 1, 1⟩ (.inst 0 "Dependency1" [])
      rfl rfl rfl
  · exact singleton_factory_strategies.2.1 [] regF "D1"
      ⟨"D1", "factory", .cls ⟨"Dependency1", []⟩, some "MOCK"⟩ 4 4 initState
      ⟨[], 1, 1⟩ ⟨[], 2, 2⟩ (.inst 0 "Dependency1" []) (.inst 1 "Dependency1" [])
      rfl rfl rfl rfl
  · exact (singleton_factory_strategies.2.2 [] regF "D1"
      ⟨"D1", "factory", .cls ⟨"Dependency1", []⟩, some "MOCK"⟩ ⟨"Dependency1", []⟩
      4 4 initState ⟨[], 1, 1⟩ ⟨[], 2, 2⟩ (.inst 0 "Dependency1" [])
      (.inst 1 "Dependency1" []) rfl rfl rfl rfl rfl rfl).2.2.2.1

/-- C9 counterexample: in the `M` scenario (`A` needs `D` then `B`, `B`
needs `A` again), resolving `A` aborts with a CycleError yet the
singleton `D`, fully constructed before the cycle was hit, stays cached:
the cache is *not* left unchanged by the failed resolve. -/
theorem cycle_abort_cache_counterexample :
    mod9Run.1 = .error (.cycle "M: A -> B -> A")
    ∧ mod9Run.2.cache.map (fun e => (e.owner, e.depName)) = [("M", "D")]
    ∧ initState.cache.map (fun e => (e.owner, e.depName)) = [] :=
  ⟨rfl, rfl, rfl⟩

/-- C9 (amended): a resolve that aborts never caches a partially
constructed singleton: every name still on the resolution path keeps its
previous cache entry (first conjunct), and so does the name the failed
resolve started from, provided it is not an alias (second conjunct);
only singletons whose construction completed before the abort remain
cached. -/
theorem cycle_abort_cache_amended :
    (∀ (env : Env) (fuel : Nat) (reg : RegMap) (n : String) (path : List String)
        (s : RState) (o q : String), q ∈ path →
      cacheLookup ((resolve env fuel reg n path s).2).cache o q =
        cacheLookup s.cache o q)
    ∧ (∀ (env : Env) (fuel : Nat) (reg : RegMap) (n : String) (path : List String)
        (s : RState) (e : DIError) (s' : RState) (cfg : DConf),
        resolve env (fuel + 1) reg n path s = (.error e, s') →
        lookupReg reg n = some cfg → parseStrategy cfg.strategy ≠ some .alias →
        ∀ o, cacheLookup s'.cache o n = cacheLookup s.cache o n) :=
  ⟨fun env fuel reg n path s o q hq => resolve_cache env fuel reg n path s o q hq,
   fun env fuel reg n path s e s' cfg h hl hna =>
    resolve_error_root_cache env fuel reg n path s e s' cfg h hl hna⟩

/-- Witness for C9 (amended), on the `M` scenario: a resolve of `B` with
`A` on the path leaves `A`'s cache entry unchanged, and the failed
top-level resolve of `A` leaves `A` itself uncached. -/
theorem cycle_abort_cache_amended_witness :
    cacheLookup ((resolve (buildEnv [mod9]) 9 mod9.injector.dependencies "B" ["A"]
        initState).2).cache "M" "A" = cacheLookup initState.cache "M" "A"
    ∧ cacheLookup mod9Run.2.cache "M" "A" = cacheLookup initState.cache "M" "A" := by
  constructor
  · exact cycle_abort_cache_amended.1 (buildEnv [mod9]) 9 mod9.injector.dependencies
      "B" ["A"] initState "M" "A" (by simp)
  · exact cycle_abort_cache_amended.2 (buildEnv [mod9]) 9 mod9.injector.dependencies
      "A" [] initState (.cycle "M: A -> B -> A") mod9Run.2
      ⟨"A", "singleton", .cls ⟨"A", ["D", "B"]⟩, some "M"⟩ (by rfl) rfl (by decide) "M"

/-- C7: a Module constructed with `exports: '*'` exports every name
registered in its Registry (own and imported), while a Module
constructed with an explicit export list exports exactly the configs
whose `belongTo` equals the module's own name — never an
imported-but-not-locally-declared name (`src/module.js` lines 23–35,
which filter on ownership and do not consult the listed names). -/
theorem module_exports_ownership :
    ∀ (cfg : ModuleConfig) (m : Module), createModule cfg = .ok m →
      (cfg.exports = some .star → m.exports = some m.injector.dependencies)
      ∧ (∀ l, cfg.exports = some (.names l) →
          ∃ ex, m.exports = some ex ∧
            ∀ kv, kv ∈ ex ↔ kv ∈ m.injector.dependencies ∧ kv.2.belongTo = some m.name) := by
  intro cfg m h
  unfold createModule at h
  split at h
  · cases h
  · split at h
    · cases h
    · cases h
      constructor
      · intro hex
        rw [hex]
        rfl
      · intro l hex
        refine ⟨_, by rw [hex]; rfl, ?_⟩
        intro kv
        simp [computeExports, List.mem_filter]

/-- Witness for C7: the test module `XModule` (declares `G,H,I,J`,
exports the explicit list `['G']`) exports all four of its own
declarations, and the wildcard-exporting module `Y` exports its full
registry. -/
theorem module_exports_ownership_witness :
    (∃ ex, modX.exports = some ex ∧
      ∀ kv, kv ∈ ex ↔ kv ∈ modX.injector.dependencies ∧ kv.2.belongTo = some modX.name)
    ∧ modY.exports = some modY.injector.dependencies := by
  constructor
  · exact (module_exports_ownership modXCfg modX rfl).2 ["G"] rfl
  · exact (module_exports_ownership modYCfg modY rfl).1 rfl

/-- C10: a Module built from a config without an `exports` field leaves
its export map absent, and a module without an export map appearing in
another module's imports list is silently skipped by the importing
constructor (`src/module.js` lines 13–19): the construction is the same
as if it were not listed at all. -/
theorem module_missing_exports_skipped :
    (∀ (cfg : ModuleConfig) (m : Module), cfg.exports = none →
      createModule cfg = .ok m → m.exports = none)
    ∧ (∀ (nm : String) (decls : List DConf) (pre post : List Module)
        (mI : Module) (ex : Option ExportsSpec), mI.exports = none →
        createModule ⟨nm, decls, pre ++ mI :: post, ex⟩ =
          createModule ⟨nm, decls, pre ++ post, ex⟩) := by
  constructor
  · intro cfg m hex h
    unfold createModule at h
    split at h
    · cases h
    · split at h
      · cases h
      · cases h
        show computeExports _ _ cfg.exports = none
        rw [hex]
        rfl
  · intro nm decls pre post mI ex hex
    have hskip : ∀ i : Injector,
        addAllImports i (pre ++ mI :: post) = addAllImports i (pre ++ post) := by
      intro i
      induction pre generalizing i with
      | nil => simp [addAllImports, hex]
      | cons m' pre' ih =>
        cases hm : m'.exports with
        | none =>
          simp only [List.cons_append, addAllImports, hm]
          exact ih i
        | some ex' =>
          cases haim : addImports i ex' with
          | error e => simp only [List.cons_append, addAllImports, hm, haim]
          | ok i' =>
            simp only [List.cons_append, addAllImports, hm, haim]
            exact ih i'
    simp only [createModule]
    rw [hskip]

/-- `addImports` leaves the injector's own name unchanged. -/
theorem addImports_name : ∀ (entries : List (String × DConf)) (i i' : Injector),
    addImports i entries = .ok i' → i'.name = i.name := by
  intro entries
  induction entries with
  | nil =>
    intro i i' h
    cases h
    rfl
  | cons kc rest ih =>
    intro i i' h
    obtain ⟨k, c⟩ := kc
    unfold addImports at h
    split at h
    · cases h
    · exact ih { i with dependencies := insertReg i.dependencies k c } i' h

/-- `addAllImports` leaves the injector's own name unchanged. -/
theorem addAllImports_name : ∀ (ms : List Module) (i i' : Injector),
    addAllImports i ms = .ok i' → i'.name = i.name := by
  intro ms
  induction ms with
  | nil =>
    intro i i' h
    cases h
    rfl
  | cons m rest ih =>
    intro i i' h
    cases hm : m.exports with
    | none =>
      simp only [addAllImports, hm] at h
      exact ih i i' h
    | some ex =>
      cases haim : addImports i ex with
      | error e =>
        simp only [addAllImports, hm, haim] at h
        cases h
      | ok i₁ =>
        simp only [addAllImports, hm, haim] at h
        rw [ih i₁ i' h]
        exact addImports_name ex i i₁ haim

/-- A successful non-provider registration is exactly a `store`. -/
theorem registerOne_plain (i : Injector) (c : DConf) (i' : Injector)
    (h : registerOne i c = .ok i')
    (hnp : parseStrategy c.strategy ≠ some .provider) : i' = store i c := by
  unfold registerOne at h
  repeat' split at h
  all_goals cases h
  · exact absurd (by simp_all) hnp
  · rfl

/-- A successful non-provider registration of a config named other than
`q` does not change the lookup at `q`. -/
theorem registerOne_preserve (i : Injector) (c : DConf) (i' : Injector) (q : String)
    (h : registerOne i c = .ok i') (hnp : parseStrategy c.strategy ≠ some .provider)
    (hq : c.name ≠ q) : lookupReg i'.dependencies q = lookupReg i.dependencies q := by
  rw [registerOne_plain i c i' h hnp, lookupReg_store, if_neg hq]

/-- A `register` call whose configs are all non-provider and named other
than `q` leaves the lookup at `q` unchanged (also across a failing call). -/
theorem register_preserve : ∀ (cs : List DConf) (i : Injector) (q : String),
    (∀ c' ∈ cs, parseStrategy c'.strategy ≠ some .provider ∧ c'.name ≠ q) →
    lookupReg ((register i cs).2).dependencies q = lookupReg i.dependencies q := by
  intro cs
  induction cs with
  | nil => intro i q hcs; rfl
  | cons c rest ih =>
    intro i q hcs
    unfold register
    cases hro : registerOne i c with
    | error e => rfl
    | ok i₁ =>
      have h1 := registerOne_preserve i c i₁ q hro (hcs c (by simp)).1 (hcs c (by simp)).2
      show lookupReg ((register i₁ rest).2).dependencies q = lookupReg i.dependencies q
      rw [ih i₁ q (fun c' hc' => hcs c' (by simp [hc']))]
      exact h1

/-- `register` over an appended list runs the prefix first and continues
with the suffix only when the prefix succeeded. -/
theorem register_append (xs : List DConf) : ∀ (i : Injector) (ys : List DConf),
    register i (xs ++ ys) = (match register i xs with
      | (some e, j) => (some e, j)
      | (none, j) => register j ys) := by
  induction xs with
  | nil => intro i ys; rfl
  | cons c rest ih =>
    intro i ys
    simp only [List.cons_append, register]
    cases hro : registerOne i c with
    | error e => simp only [hro]
    | ok i₁ =>
      simp only [hro]
      exact ih i₁ ys

/-- C8: the Module constructor merges every imported module's export map
into the injector before registering its own declarations, so a locally
declared name wins over an imported one: after a successful construction
the registry maps each declared name (not re-declared later in the same
list) to the local config, whatever the imports contained; hence resolve
of such a name dispatches on the local config (second conjunct: the
collided name `N` resolves to the local `"local"`, not the imported
`"imported"`). -/
theorem module_local_overrides_imports :
    (∀ (cfg : ModuleConfig) (m : Module) (pre post : List DConf) (d : DConf),
      createModule cfg = .ok m →
      cfg.declarations = pre ++ d :: post →
      parseStrategy d.strategy ≠ some .provider →
      (∀ d' ∈ post, parseStrategy d'.strategy ≠ some .provider ∧ d'.name ≠ d.name) →
      lookupReg m.injector.dependencies d.name =
        some ({ d with belongTo := some (d.belongTo.getD cfg.name) }))
    ∧ overrideRun = .ok (.lit (.str "local")) := by
  refine ⟨?_, rfl⟩
  intro cfg m pre post d h hdecls hdp hpost
  unfold createModule at h
  split at h
  · cases h
  next i1 heq1 =>
    split at h
    · cases h
    next i2 heq2 =>
      cases h
      rw [hdecls, register_append] at heq2
      cases hp1 : register i1 pre with
      | mk r1 j1 =>
        rw [hp1] at heq2
        cases r1 with
        | some e => simp at heq2
        | none =>
          have heq3 : register j1 (d :: post) = (none, i2) := heq2
          unfold register at heq3
          cases hro : registerOne j1 d with
          | error e =>
            rw [hro] at heq3
            simp at heq3
          | ok j2 =>
            rw [hro] at heq3
            have heq4 : register j2 post = (none, i2) := heq3
            have hj2 : j2 = store j1 d := registerOne_plain j1 d j2 hro hdp
            have hpre := register_preserve post j2 d.name hpost
            rw [heq4] at hpre
            rw [hpre, hj2, lookupReg_store, if_pos rfl]
            have hn1 : j1.name = i1.name := by
              have hrn := register_name pre i1
              rw [hp1] at hrn
              exact hrn
            have hn2 : i1.name = cfg.name :=
              addAllImports_name cfg.imports ⟨cfg.name, []⟩ i1 heq1
            rw [hn1, hn2]

/-- Witness for C8: in the `Imp`/`Loc` scenario the collided name `N` is
mapped to the locally declared config, tagged as belonging to `Loc`. -/
theorem module_local_overrides_imports_witness :
    lookupReg (moduleOf locModCfg).injector.dependencies "N" =
      some ⟨"N", "value", .lit (.str "local"), some "Loc"⟩ := by
  have h := module_local_overrides_imports.1 locModCfg (moduleOf locModCfg) [] []
    ⟨"N", "value", .lit (.str "local"), none⟩ rfl rfl (by decide) (by simp)
  simpa using h

/-- Witness for C10: the exports-less module `NoExp` has an absent
export map, and listing it among a module's imports changes nothing. -/
theorem module_missing_exports_skipped_witness :
    (moduleOf noExpCfg).exports = none
    ∧ createModule ⟨"W", [], [moduleOf noExpCfg], some .star⟩ =
        createModule ⟨"W", [], [], some .star⟩ := by
  constructor
  · exact module_missing_exports_skipped.1 noExpCfg (moduleOf noExpCfg) rfl rfl
  · have h := module_missing_exports_skipped.2 "W" [] [] []
      (moduleOf noExpCfg) (some .star) rfl
    simpa using h

/-- Witness for C2: discovering the repeat of `B` on the path
`[A, B, C]` (the spec's worked example) yields the closed segment
`B -> C -> B`, qualified by `B`'s owning module `M`. -/
theorem cycle_error_message_format_witness :
    resolve [] 5 regBW "B" ["A", "B", "C"] initState =
      (.error (.cycle "M: B -> C -> B"), initState) := by
  have h := cycle_error_message_format.1 [] 4 regBW "B" ["A", "B", "C"]
    initState (by simp)
  exact h

end Hekdi
